import Mathlib

/-!
Verification of the ubports push-component client session against its
specification.  The repository ships the session package's test suite
(src/unnamed/part_000) and the retry utility (src/util/redialer.go); the
session implementation itself (client/session) is not among the sources,
so its operations are modelled from the specification, with behaviour the
test suite pins down noted at each definition.
-/

namespace PushClient

/-- A JSON value, as decoded by the protocol codec.  Payloads arrive as raw
JSON; `json.Unmarshal` into a Go `map[string]interface` succeeds exactly on
object values. -/
inductive Json where
  | null : Json
  | bool (b : Bool) : Json
  | num (n : Int) : Json
  | str (s : String) : Json
  | arr (xs : List Json) : Json
  | obj (fields : List (String × Json)) : Json

/-- Decoding a payload into a string-keyed map: succeeds exactly on JSON
objects, returning the field list; any other JSON value fails. -/
def Json.asObject : Json → Option (List (String × Json))
  | .obj fields => some fields
  | _ => none

/-- The session lifecycle states (ClientSessionState in the source tests). -/
inductive ClientSessionState where
  | Error
  | Pristine
  | Disconnected
  | Connected
  | Started
  | Running
  | Shutdown
  | Unknown
deriving DecidableEq

/-- A unicast notification: `protocol.Notification` with appId, msgId and
an opaque payload. -/
structure Notification where
  appId : String
  msgId : String
  payload : Json

/-- A broadcast message: `protocol.BroadcastMsg` (the envelope type and the
ignored appId field are omitted). -/
structure BroadcastMsg where
  chanId : String
  topLevel : Int
  payloads : List Json

/-- The decoded broadcast handed to consumers on the broadcast channel. -/
structure BroadcastNotification where
  topLevel : Int
  decoded : List (List (String × Json))

/-- A unicast notification paired with its resolved addressee (the `To`
field of the Go struct). -/
structure AddressedNotification where
  To : String
  notification : Notification

/-- Messages the session writes to the protocol codec: acks/naks and the
pong reply. -/
inductive WireMsg where
  | ackMsg (ackType : String)
  | pingPongMsg (t : String)

/-- The system broadcast channel id, the only recognized channel. -/
def systemChannelId : String := "0"

/-- Modelled from the spec: the seen-state store (client/session/seenstate
is not among the sources).  Either a healthy in-memory store holding the
per-channel levels and the seen msg ids, or a store whose every operation
fails (the test suite's brokenSeenState, which returns the error
"broken."). -/
inductive SeenState where
  | mem (levels : List (String × Int)) (seen : List String)
  | broken

/-- Update the level recorded for a channel (insert or replace). -/
def setLevelList : List (String × Int) → String → Int → List (String × Int)
  | [], ch, lvl => [(ch, lvl)]
  | (c, l) :: rest, ch, lvl =>
      if c = ch then (ch, lvl) :: rest else (c, l) :: setLevelList rest ch lvl

/-- Modelled from the spec: `SetLevel(channelId, topLevel)`; the broken
variant fails. -/
def SeenState.setLevel : SeenState → String → Int → Except String SeenState
  | .mem lv sn, ch, lvl => .ok (.mem (setLevelList lv ch lvl) sn)
  | .broken, _, _ => .error "broken."

/-- Modelled from the spec: `GetAllLevels()` returns the level map; the
broken variant fails. -/
def SeenState.getAllLevels : SeenState → Except String (List (String × Int))
  | .mem lv _ => .ok lv
  | .broken => .error "broken."

/-- Walk a batch of notifications, dropping the ones whose msgId was
already seen and recording the msgId of each one kept (within-batch
duplicates are dropped as well, as the store records ids as it goes). -/
def filterBySeenList (sn : List String) :
    List Notification → List Notification × List String
  | [] => ([], sn)
  | n :: ns =>
      if n.msgId ∈ sn then filterBySeenList sn ns
      else
        let r := filterBySeenList (n.msgId :: sn) ns
        (n :: r.1, r.2)

/-- Modelled from the spec: `FilterBySeen(notifications)` returns the
unseen notifications and records the ids of the returned notifications so
a second call returns none; the broken variant fails. -/
def SeenState.filterBySeen :
    SeenState → List Notification → Except String (List Notification × SeenState)
  | .mem lv sn, ns =>
      let r := filterBySeenList sn ns
      .ok (r.1, .mem lv r.2)
  | .broken, _ => .error "broken."

/-- The client session state, as observable by the tests: lifecycle state,
the shouldDelay flag, host list and rotation cursor, hosts cache
bookkeeping, seen-state handle, the messages written to the codec together
with the scripted outcome of each pending write (mirroring the test
protocol's up channel; an exhausted script means writes succeed), the two
output channels, and the redial-delay schedule walk. -/
structure Session where
  state : ClientSessionState
  shouldDelay : Bool
  fallbackHosts : Option (List String)
  deliveryHosts : Option (List String)
  tryHost : Nat
  leftToTry : Nat
  hostsTimestamp : Int
  lastAttemptTimestamp : Int
  hostsCachingExpiryTime : Int
  expectAllRepairedTime : Int
  seenState : SeenState
  writes : List WireMsg
  writeReplies : List (Option String)
  broadcastCh : List BroadcastNotification
  notificationsCh : List AddressedNotification
  connectedHost : Option String
  redialDelays : List Int
  redialDelayIndex : Nat

/-- Write one message through the codec: the message is recorded and the
next scripted outcome is consumed (none, i.e. success, once the script is
exhausted). -/
def Session.writeMessage (sess : Session) (m : WireMsg) : Option String × Session :=
  (sess.writeReplies.headD none,
   { sess with writes := sess.writes ++ [m], writeReplies := sess.writeReplies.tail })

/-- Modelled from the spec: `setShouldDelay()`. -/
def setShouldDelay (sess : Session) : Session := { sess with shouldDelay := true }

/-- Modelled from the spec: `clearShouldDelay()`. -/
def clearShouldDelay (sess : Session) : Session := { sess with shouldDelay := false }

/-- Modelled from the spec: `nextHostToTry()` of the missing session
implementation.  When `leftToTry == 0` it returns the empty string and does
not advance; otherwise it returns `hosts[tryHost]`, advances
`tryHost ← (tryHost+1) mod len(hosts)` and decrements `leftToTry`. -/
def Session.nextHostToTry (sess : Session) : String × Session :=
  if sess.leftToTry = 0 then ("", sess)
  else
    let hosts := sess.deliveryHosts.getD []
    (hosts.getD sess.tryHost "",
     { sess with
        tryHost := (sess.tryHost + 1) % hosts.length,
        leftToTry := sess.leftToTry - 1 })

/-- Iterate `nextHostToTry` n times, collecting the returned strings. -/
def runNextHosts : Session → Nat → List String × Session
  | sess, 0 => ([], sess)
  | sess, n + 1 =>
      let r := sess.nextHostToTry
      let rest := runNextHosts r.2 n
      (r.1 :: rest.1, rest.2)

/-- Modelled from the spec: `resetHosts()` clears `deliveryHosts` and the
cache timestamp, forcing a refresh on the next `getHosts()` call. -/
def resetHosts (sess : Session) : Session :=
  { sess with deliveryHosts := none, hostsTimestamp := 0 }

/-- Modelled from the spec: `getHosts()` of the missing session
implementation.  A configured fallback list wins; otherwise a fresh cache
(deliveryHosts present and younger than `HostsCachingExpiryTime`) is kept;
otherwise the host endpoint is consulted (its outcome passed in as
`fetch`); on fetch failure the error is surfaced and the session moves to
`Error`. -/
def getHosts (fetch : Except String (List String)) (now : Int) (sess : Session) :
    Option String × Session :=
  match sess.fallbackHosts with
  | some fb => (none, { sess with deliveryHosts := some fb })
  | none =>
      if sess.deliveryHosts.isSome then
        if now - sess.hostsTimestamp < sess.hostsCachingExpiryTime then
          (none, sess)
        else
          match fetch with
          | .error e => (some e, { sess with state := .Error })
          | .ok hosts =>
              (none, { sess with deliveryHosts := some hosts, hostsTimestamp := now })
      else
        match fetch with
        | .error e => (some e, { sess with state := .Error })
        | .ok hosts =>
            (none, { sess with deliveryHosts := some hosts, hostsTimestamp := now })

/-- Modelled from the spec: `startConnectionAttempt()` resets the cursor to
the head when the last attempt was longer than `ExpectAllRepairedTime` ago,
always resets `leftToTry ← len(hosts)`, and records the attempt timestamp;
with no hosts it panics (returned here as `none`), as pinned by
TestStartConnectionAttemptNoHostsPanic. -/
def startConnectionAttempt (sinceLast now : Int) (sess : Session) : Option Session :=
  let hosts := sess.deliveryHosts.getD []
  if hosts.length = 0 then none
  else
    let sess := if sinceLast > sess.expectAllRepairedTime then { sess with tryHost := 0 } else sess
    some { sess with leftToTry := hosts.length, lastAttemptTimestamp := now }

/-- The host-rotation loop inside `connect()`: take the next host; an empty
string means the rotation is exhausted (state → Error with the dial error);
otherwise dial it (outcome given by the `dialOk` oracle), stopping on the
first success (state → Connected, connection stored). -/
def connectLoop (dialOk : String → Bool) : Nat → Session → Option String × Session
  | 0, sess => (some "connect: cannot connect", { sess with state := .Error })
  | fuel + 1, sess =>
      let r := sess.nextHostToTry
      if r.1 = "" then (some "connect: cannot connect", { r.2 with state := .Error })
      else if dialOk r.1 then
        (none, { r.2 with state := .Connected, connectedHost := some r.1 })
      else connectLoop dialOk fuel r.2

/-- Modelled from the spec: `connect()` unconditionally sets `shouldDelay`,
starts a connection attempt (panicking, i.e. `none`, without hosts) and
walks the rotation until a dial succeeds or it exhausts. -/
def connect (dialOk : String → Bool) (sinceLast now : Int) (sess : Session) :
    Option (Option String × Session) :=
  let sess := setShouldDelay sess
  match startConnectionAttempt sinceLast now sess with
  | none => none
  | some sess => some (connectLoop dialOk (sess.leftToTry + 1) sess)

/-- Modelled from the spec: `started()` after a successful handshake moves
the session to `Started`; the host-rotation cursor is moved back one
position modulo `len(deliveryHosts)` (this rollback is not in the spec's
words; it is pinned by TestStarted in the repository's test suite). -/
def started (sess : Session) : Session :=
  let hosts := sess.deliveryHosts.getD []
  let t := if sess.tryHost = 0 then hosts.length - 1 else sess.tryHost - 1
  { sess with tryHost := t, state := .Started }

/-- Modelled from the spec: `handlePing` writes `Pong`; on write success it
clears `shouldDelay`, on write failure it surfaces the error and (pinned by
TestHandlePingHandlesPongWriteError) moves to `Error`. -/
def handlePing (sess : Session) : Option String × Session :=
  let r := sess.writeMessage (.pingPongMsg "pong")
  match r.1 with
  | none => (none, clearShouldDelay r.2)
  | some e => (some e, { r.2 with state := .Error })

/-- Modelled from the spec: `handleBroadcast` of the missing session
implementation.  For the recognized system channel the seen-state level is
recorded first (design note: SetLevel before ack); a seen-state failure
naks the message, surfaces the store's error and moves to `Error`.
Otherwise the message is ack'ed (a failed ack write surfaces the error and
moves to `Error`); for the system channel the successfully decoded object
payloads are enqueued as one BroadcastNotification, an unrecognized channel
is dropped; `shouldDelay` is cleared only after the fully successful
flow. -/
def handleBroadcast (sess : Session) (bcast : BroadcastMsg) : Option String × Session :=
  if bcast.chanId = systemChannelId then
    match sess.seenState.setLevel bcast.chanId bcast.topLevel with
    | .error e =>
        let r := sess.writeMessage (.ackMsg "nak")
        (some e, { r.2 with state := .Error })
    | .ok st =>
        let s1 : Session := { sess with seenState := st }
        let r := s1.writeMessage (.ackMsg "ack")
        match r.1 with
        | some e => (some e, { r.2 with state := .Error })
        | none =>
            let decoded := bcast.payloads.filterMap Json.asObject
            let s3 : Session :=
              { r.2 with broadcastCh :=
                  r.2.broadcastCh ++ [⟨bcast.topLevel, decoded⟩] }
            (none, clearShouldDelay s3)
  else
    let r := sess.writeMessage (.ackMsg "ack")
    match r.1 with
    | some e => (some e, { r.2 with state := .Error })
    | none => (none, clearShouldDelay r.2)

/-- Modelled from the spec: `handleNotifications` of the missing session
implementation.  The batch is first run through `FilterBySeen` (design
note: FilterBySeen before ack; TestHandleNotificationsFiltersSeen pins that
the addressee checks happen on the post-filter survivors), a seen-state
failure naks the message, surfaces the store's error and moves to `Error`;
then the batch is ack'ed (a failed write surfaces the error and moves to
`Error`); each surviving notification with an installed addressee (the
`checker` hook) is enqueued as an AddressedNotification; `shouldDelay` is
cleared only on full success. -/
def handleNotifications (sess : Session) (checker : Notification → Option String)
    (notifs : List Notification) : Option String × Session :=
  match sess.seenState.filterBySeen notifs with
  | .error e =>
      let r := sess.writeMessage (.ackMsg "nak")
      (some e, { r.2 with state := .Error })
  | .ok (unseen, st) =>
      let s1 : Session := { sess with seenState := st }
      let r := s1.writeMessage (.ackMsg "ack")
      match r.1 with
      | some e => (some e, { r.2 with state := .Error })
      | none =>
          let addressed := unseen.filterMap fun n =>
            (checker n).map fun appId => AddressedNotification.mk appId n
          let s3 : Session :=
            { r.2 with notificationsCh := r.2.notificationsCh ++ addressed }
          (none, clearShouldDelay s3)

/-- The distinguished ConnBroken reason (protocol.BrokenHostMismatch). -/
def brokenHostMismatch : String := "host-mismatch"

/-- Modelled from the spec: `handleConnBroken` resets the hosts when the
reason is "host-mismatch", surfaces an error carrying the reason string and
moves to `Error`. -/
def handleConnBroken (sess : Session) (reason : String) : Option String × Session :=
  let sess := if reason = brokenHostMismatch then resetHosts sess else sess
  (some ("server broke connection: " ++ reason), { sess with state := .Error })

/-- Modelled from the spec: `redialDelay(sess)` walks an internal cursor
over the backoff schedule while `shouldDelay` is true (adding
`redialJitter(delay)` each such call, and holding at the last entry);
when `shouldDelay` is false it returns 0 and resets the cursor to the
head. -/
def redialDelay (jitter : Int → Int) (sess : Session) : Int × Session :=
  if sess.shouldDelay then
    let t := sess.redialDelays.getD sess.redialDelayIndex 0
    let idx :=
      if sess.redialDelayIndex < sess.redialDelays.length - 1 then
        sess.redialDelayIndex + 1
      else sess.redialDelayIndex
    (t + jitter t, { sess with redialDelayIndex := idx })
  else (0, { sess with redialDelayIndex := 0 })

/-- Iterate `redialDelay` n times, collecting the returned delays. -/
def runRedialDelays (jitter : Int → Int) : Session → Nat → List Int × Session
  | sess, 0 => ([], sess)
  | sess, n + 1 =>
      let r := redialDelay jitter sess
      let rest := runRedialDelays jitter r.2 n
      (r.1 :: rest.1, rest.2)

/-!  The retry utility, translated from src/util/redialer.go.  Durations
are modelled as Int nanoseconds, `time.Second` being 10^9. -/

/-- One second, in nanoseconds (Go's time.Second). -/
def second : Int := 1000000000

/-- The backoff bases of redialer.go's init: 1, 2, 5, 11, 19, 37, 67, 113,
191 (seconds). -/
def timeoutBases : List Int := [1, 2, 5, 11, 19, 37, 67, 113, 191]

/-- util.Timeouts, as built by redialer.go's init: the bases scaled to
durations. -/
def Timeouts : List Int := timeoutBases.map (fun n => n * second)

/-- 2^32, the modulus of Go's uint32 arithmetic used for dialAttempts. -/
def uint32Mod : Nat := 4294967296

/-- The timeout AutoRetry picks before the wait that follows failed attempt
number `dialAttempts` (zero-based): `Timeouts[dialAttempts]` while in
range, the last entry beyond. -/
def timeoutFor (dialAttempts : Nat) : Int :=
  if dialAttempts < Timeouts.length then Timeouts.getD dialAttempts 0
  else Timeouts.getD (Timeouts.length - 1) 0

/-- util.AutoRetry's loop, with the environment made explicit: `f i` tells
whether the (zero-based) i-th call of the attempt function succeeds,
`cancel i` whether the quit signal is delivered during the wait after
failed attempt i (the select runs only after f has returned, so a signal
never interrupts an in-flight attempt).  `d` is the running uint32
dialAttempts counter.  Returns the attempt count AutoRetry returns together
with the list of fully slept waits, or `none` when the fuel runs out before
the loop does. -/
def autoRetryAux (f : Nat → Bool) (jitter : Int → Int) (cancel : Nat → Bool) :
    Nat → Nat → Option (Nat × List Int)
  | _, 0 => none
  | d, fuel + 1 =>
      if f d then some ((d + 1) % uint32Mod, [])
      else
        let t := timeoutFor d
        let w := t + jitter t
        let d' := (d + 1) % uint32Mod
        if cancel d then some (d', [])
        else
          match autoRetryAux f jitter cancel d' fuel with
          | none => none
          | some (n, ws) => some (n, w :: ws)

/-- util.AutoRetry, starting from dialAttempts = 0. -/
def AutoRetry (f : Nat → Bool) (jitter : Int → Int) (cancel : Nat → Bool)
    (fuel : Nat) : Option (Nat × List Int) :=
  autoRetryAux f jitter cancel 0 fuel

/-- A freshly created session: Pristine, not delaying, no hosts, healthy
empty seen state, no pending writes, default redial schedule. -/
def session0 : Session :=
  { state := .Pristine
    shouldDelay := false
    fallbackHosts := none
    deliveryHosts := none
    tryHost := 0
    leftToTry := 0
    hostsTimestamp := 0
    lastAttemptTimestamp := 0
    hostsCachingExpiryTime := 0
    expectAllRepairedTime := 0
    seenState := .mem [] []
    writes := []
    writeReplies := []
    broadcastCh := []
    notificationsCh := []
    connectedHost := none
    redialDelays := Timeouts
    redialDelayIndex := 0 }

/-!  Helper lemmas. -/

theorem nextHostToTry_exhausted (sess : Session) (hl : sess.leftToTry = 0) :
    sess.nextHostToTry = ("", sess) := by
  simp [Session.nextHostToTry, hl]

theorem nextHostToTry_step (sess : Session) (hosts : List String)
    (hd : sess.deliveryHosts = some hosts) (hl : sess.leftToTry ≠ 0) :
    sess.nextHostToTry =
      (hosts.getD sess.tryHost "",
       { sess with
          tryHost := (sess.tryHost + 1) % hosts.length,
          leftToTry := sess.leftToTry - 1 }) := by
  simp [Session.nextHostToTry, hl, hd]

theorem getD_mem_of_lt : ∀ (l : List String) (j : Nat), j < l.length → l.getD j "" ∈ l := by
  intro l j h
  rw [List.getD_eq_getElem l "" h]
  exact List.getElem_mem h

/-- The host-rotation walk: from a cursor inside a host list of length k,
n calls with `leftToTry = n` return the hosts at positions
cursor, cursor+1, …, cursor+n-1 (mod k) and stop with `leftToTry = 0` and
the cursor advanced n positions mod k. -/
theorem runNextHosts_cycle (hosts : List String) :
    ∀ (n : Nat) (sess : Session),
      sess.deliveryHosts = some hosts →
      sess.tryHost < hosts.length →
      sess.leftToTry = n →
      (runNextHosts sess n).1 =
        (List.range' sess.tryHost n).map (fun j => hosts.getD (j % hosts.length) "") ∧
      (runNextHosts sess n).2 =
        { sess with tryHost := (sess.tryHost + n) % hosts.length, leftToTry := 0 } := by
  intro n
  induction n with
  | zero =>
      intro sess hd ht hl
      refine ⟨rfl, ?_⟩
      show sess = _
      rw [Nat.add_zero, Nat.mod_eq_of_lt ht, ← hl]
  | succ m ih =>
      intro sess hd ht hl
      have hk : 0 < hosts.length := Nat.lt_of_le_of_lt (Nat.zero_le _) ht
      have hl0 : sess.leftToTry ≠ 0 := by omega
      have hstep := nextHostToTry_step sess hosts hd hl0
      have hrec := ih
        { sess with
            tryHost := (sess.tryHost + 1) % hosts.length,
            leftToTry := sess.leftToTry - 1 }
        hd (Nat.mod_lt _ hk) (by simp [hl])
      simp only [runNextHosts, hstep]
      constructor
      · rw [hrec.1]
        rw [List.range'_succ, List.map_cons]
        congr 1
        · rw [Nat.mod_eq_of_lt ht]
        · rw [List.range'_eq_map_range, List.range'_eq_map_range, List.map_map, List.map_map]
          apply List.map_congr_left
          intro i _
          simp only [Function.comp]
          rw [Nat.mod_add_mod]
      · rw [hrec.2]
        have harith : ((sess.tryHost + 1) % hosts.length + m) % hosts.length =
            (sess.tryHost + (m + 1)) % hosts.length := by
          rw [Nat.mod_add_mod]
          congr 1
          omega
        rw [harith]

/-- C1: after `leftToTry` is reset to the length k of the delivery-host
list, successive `nextHostToTry` calls return exactly k non-empty strings
cycling through the list from the current cursor; once exhausted every call
returns the empty string without touching the state, the cursor is back at
its starting value, and resetting `leftToTry` resumes the same cycle. -/
theorem nextHostToTry_cycles (hosts : List String) (sess : Session)
    (hd : sess.deliveryHosts = some hosts)
    (ht : sess.tryHost < hosts.length)
    (hne : ∀ h ∈ hosts, h ≠ "")
    (hl : sess.leftToTry = hosts.length) :
    (runNextHosts sess hosts.length).1 =
      (List.range hosts.length).map
        (fun i => hosts.getD ((sess.tryHost + i) % hosts.length) "") ∧
    (∀ h ∈ (runNextHosts sess hosts.length).1, h ≠ "") ∧
    (runNextHosts sess hosts.length).1.length = hosts.length ∧
    (runNextHosts sess hosts.length).2 = { sess with leftToTry := 0 } ∧
    ({ sess with leftToTry := 0 } : Session).nextHostToTry = ("", { sess with leftToTry := 0 }) ∧
    (runNextHosts { sess with leftToTry := hosts.length } hosts.length).1 =
      (runNextHosts sess hosts.length).1 := by
  have hcyc := runNextHosts_cycle hosts hosts.length sess hd ht hl
  have hform : (List.range' sess.tryHost hosts.length).map
      (fun j => hosts.getD (j % hosts.length) "") =
      (List.range hosts.length).map
        (fun i => hosts.getD ((sess.tryHost + i) % hosts.length) "") := by
    rw [List.range'_eq_map_range, List.map_map]
    rfl
  have hres : (runNextHosts sess hosts.length).1 =
      (List.range hosts.length).map
        (fun i => hosts.getD ((sess.tryHost + i) % hosts.length) "") := by
    rw [hcyc.1, hform]
  have hk : 0 < hosts.length := Nat.lt_of_le_of_lt (Nat.zero_le _) ht
  refine ⟨hres, ?_, ?_, ?_, ?_, ?_⟩
  · intro h hmem
    rw [hres] at hmem
    obtain ⟨i, _, hi⟩ := List.mem_map.mp hmem
    have hlt : (sess.tryHost + i) % hosts.length < hosts.length := Nat.mod_lt _ hk
    exact hne _ (hi ▸ getD_mem_of_lt hosts _ hlt)
  · rw [hres]
    simp
  · rw [hcyc.2]
    have : (sess.tryHost + hosts.length) % hosts.length = sess.tryHost := by
      rw [Nat.add_mod_right]
      exact Nat.mod_eq_of_lt ht
    rw [this]
  · exact nextHostToTry_exhausted _ rfl
  · have hcyc2 := runNextHosts_cycle hosts hosts.length
      { sess with leftToTry := hosts.length } hd ht rfl
    rw [hcyc2.1, hcyc.1]

/-- The concrete broadcast of scenario S2: channel "0", topLevel 2, and the
three payloads of TestHandleBroadcastWorks. -/
def bcastS2 : BroadcastMsg :=
  { chanId := "0"
    topLevel := 2
    payloads :=
      [ .obj [("img1/m1", .arr [.num 101, .str "tubular"])],
        .bool false,
        .obj [("img1/m1", .arr [.num 102, .str "tubular"])] ] }

/-- C2: handling the S2 broadcast on a fresh session acks it (the ack being
the first and only codec write), records level 2 for channel "0", and
enqueues exactly one BroadcastNotification with topLevel 2 whose decoded
list holds the two object payloads in arrival order, the non-object `false`
payload having been skipped. -/
theorem handleBroadcast_S2 :
    (handleBroadcast session0 bcastS2).1 = none ∧
    (handleBroadcast session0 bcastS2).2.writes = [.ackMsg "ack"] ∧
    (handleBroadcast session0 bcastS2).2.seenState.getAllLevels = .ok [("0", 2)] ∧
    (handleBroadcast session0 bcastS2).2.broadcastCh =
      [⟨2, [ [("img1/m1", .arr [.num 101, .str "tubular"])],
             [("img1/m1", .arr [.num 102, .str "tubular"])] ]⟩] :=
  ⟨rfl, rfl, rfl, rfl⟩

/-- The session of TestNextHostToTry's second half: three hosts, cursor at
position 1, full rotation budget. -/
def sessC1 : Session :=
  { session0 with
      deliveryHosts := some ["foo:443", "bar:443", "baz:443"],
      tryHost := 1,
      leftToTry := 3 }

theorem nextHostToTry_cycles_witness :
    (runNextHosts sessC1 3).1 = ["bar:443", "baz:443", "foo:443"] ∧
    (runNextHosts sessC1 3).2 = { sessC1 with leftToTry := 0 } := by
  have h := nextHostToTry_cycles ["foo:443", "bar:443", "baz:443"] sessC1 rfl
    (by decide) (by decide) rfl
  exact ⟨h.1.trans rfl, h.2.2.2.1⟩

/-!  FilterBySeen bookkeeping lemmas. -/

theorem filterBySeenList_keeps :
    ∀ (ns : List Notification) (sn : List String) (x : String),
      x ∈ sn → x ∈ (filterBySeenList sn ns).2 := by
  intro ns
  induction ns with
  | nil => intro sn x hx; exact hx
  | cons n ns ih =>
      intro sn x hx
      by_cases h : n.msgId ∈ sn
      · simp only [filterBySeenList, if_pos h]
        exact ih sn x hx
      · simp only [filterBySeenList, if_neg h]
        exact ih (n.msgId :: sn) x (List.mem_cons_of_mem _ hx)

theorem filterBySeenList_records :
    ∀ (ns : List Notification) (sn : List String) (n : Notification),
      n ∈ ns → n.msgId ∈ (filterBySeenList sn ns).2 := by
  intro ns
  induction ns with
  | nil => intro sn n hn; cases hn
  | cons m ns ih =>
      intro sn n hn
      by_cases h : m.msgId ∈ sn
      · simp only [filterBySeenList, if_pos h]
        rcases List.mem_cons.mp hn with he | htl
        · subst he; exact filterBySeenList_keeps ns sn _ h
        · exact ih sn n htl
      · simp only [filterBySeenList, if_neg h]
        rcases List.mem_cons.mp hn with he | htl
        · subst he
          exact filterBySeenList_keeps ns _ _ (List.mem_cons_self _ _)
        · exact ih _ n htl

theorem filterBySeenList_all_seen :
    ∀ (ns : List Notification) (sn : List String),
      (∀ n ∈ ns, n.msgId ∈ sn) → filterBySeenList sn ns = ([], sn) := by
  intro ns
  induction ns with
  | nil => intro sn _; rfl
  | cons m ns ih =>
      intro sn hall
      have hm : m.msgId ∈ sn := hall m (List.mem_cons_self _ _)
      simp only [filterBySeenList, if_pos hm]
      exact ih sn fun n hn => hall n (List.mem_cons_of_mem _ hn)

/-- Characterization of a fully successful `handleNotifications` flow on a
healthy seen-state store with no scripted write failures. -/
theorem handleNotifications_ok (sess : Session) (lv : List (String × Int)) (sn : List String)
    (checker : Notification → Option String) (notifs : List Notification)
    (hs : sess.seenState = .mem lv sn) (hw : sess.writeReplies = []) :
    handleNotifications sess checker notifs =
      (none,
       { sess with
          seenState := .mem lv (filterBySeenList sn notifs).2,
          writes := sess.writes ++ [.ackMsg "ack"],
          writeReplies := [],
          notificationsCh := sess.notificationsCh ++
            ((filterBySeenList sn notifs).1.filterMap fun n =>
              (checker n).map fun appId => AddressedNotification.mk appId n),
          shouldDelay := false }) := by
  simp [handleNotifications, hs, hw, SeenState.filterBySeen, Session.writeMessage,
    clearShouldDelay]

/-- C3: a batch of unicast notifications handleNotifications accepts and
acks on a healthy store is never emitted again: each accepted msgId is
recorded, so FilterBySeen on any of them returns the empty list, and
handling the identical message a second time enqueues nothing on the
unicast output channel, still acks with "ack" and returns no error. -/
theorem handleNotifications_idempotent (sess : Session) (lv : List (String × Int))
    (sn : List String) (checker : Notification → Option String)
    (notifs : List Notification)
    (hs : sess.seenState = .mem lv sn) (hw : sess.writeReplies = []) :
    (handleNotifications sess checker notifs).1 = none ∧
    (∀ n ∈ notifs,
      (handleNotifications sess checker notifs).2.seenState.filterBySeen [n] =
        .ok ([], (handleNotifications sess checker notifs).2.seenState)) ∧
    (handleNotifications (handleNotifications sess checker notifs).2 checker notifs).1
      = none ∧
    (handleNotifications (handleNotifications sess checker notifs).2 checker
        notifs).2.notificationsCh
      = (handleNotifications sess checker notifs).2.notificationsCh ∧
    (handleNotifications (handleNotifications sess checker notifs).2 checker
        notifs).2.writes
      = (handleNotifications sess checker notifs).2.writes ++ [.ackMsg "ack"] := by
  have h1 := handleNotifications_ok sess lv sn checker notifs hs hw
  have hall : ∀ n ∈ notifs, n.msgId ∈ (filterBySeenList sn notifs).2 :=
    fun n hn => filterBySeenList_records notifs sn n hn
  have hempty := filterBySeenList_all_seen notifs (filterBySeenList sn notifs).2 hall
  have h2 := handleNotifications_ok
    { sess with
        seenState := .mem lv (filterBySeenList sn notifs).2,
        writes := sess.writes ++ [.ackMsg "ack"],
        writeReplies := [],
        notificationsCh := sess.notificationsCh ++
          ((filterBySeenList sn notifs).1.filterMap fun n =>
            (checker n).map fun appId => AddressedNotification.mk appId n),
        shouldDelay := false }
    lv (filterBySeenList sn notifs).2 checker notifs rfl rfl
  refine ⟨?_, ?_, ?_, ?_, ?_⟩
  · simp [h1]
  · intro n hn
    have hn' : n.msgId ∈ (filterBySeenList sn notifs).2 := hall n hn
    simp only [h1]
    simp [SeenState.filterBySeen, filterBySeenList, hn']
  · simp [h1, h2]
  · simp [h1, h2, hempty]
  · simp [h1, h2, hempty]

/-- The unicast notifications of the filter-seen test. -/
def notifA : Notification := ⟨"com.example.app1_app1", "a", .obj [("m", .num 1)]⟩

/-- The second unicast notification of the filter-seen test. -/
def notifB : Notification := ⟨"com.example.app2_app2", "b", .obj [("m", .num 2)]⟩

theorem handleNotifications_idempotent_witness :
    (handleNotifications session0 (fun n => some n.appId) [notifA, notifB]).1 = none ∧
    (handleNotifications
        (handleNotifications session0 (fun n => some n.appId) [notifA, notifB]).2
        (fun n => some n.appId) [notifA, notifB]).2.notificationsCh =
      (handleNotifications session0 (fun n => some n.appId)
        [notifA, notifB]).2.notificationsCh := by
  have h := handleNotifications_idempotent session0 [] [] (fun n => some n.appId)
    [notifA, notifB] rfl rfl
  exact ⟨h.1, h.2.2.2.1⟩

/-- C4: a failing seen-state store makes handleBroadcast (at SetLevel) and
handleNotifications (at FilterBySeen) nak the message instead of acking,
return the store's error, move the session to `Error`, and enqueue nothing
on the corresponding output channel. -/
theorem seenState_failure_naks (sess : Session) (bcast : BroadcastMsg)
    (checker : Notification → Option String) (notifs : List Notification)
    (hb : sess.seenState = .broken) (hc : bcast.chanId = systemChannelId) :
    ((handleBroadcast sess bcast).1 = some "broken." ∧
     (handleBroadcast sess bcast).2.writes = sess.writes ++ [.ackMsg "nak"] ∧
     (handleBroadcast sess bcast).2.state = .Error ∧
     (handleBroadcast sess bcast).2.broadcastCh = sess.broadcastCh) ∧
    ((handleNotifications sess checker notifs).1 = some "broken." ∧
     (handleNotifications sess checker notifs).2.writes = sess.writes ++ [.ackMsg "nak"] ∧
     (handleNotifications sess checker notifs).2.state = .Error ∧
     (handleNotifications sess checker notifs).2.notificationsCh
        = sess.notificationsCh) := by
  constructor <;>
    simp [handleBroadcast, handleNotifications, hb, hc, SeenState.setLevel,
      SeenState.filterBySeen, Session.writeMessage]

theorem seenState_failure_naks_witness :
    (handleBroadcast { session0 with seenState := .broken } bcastS2).1
        = some "broken." ∧
    (handleNotifications { session0 with seenState := .broken }
        (fun n => some n.appId) [notifA]).2.state = .Error := by
  have h := seenState_failure_naks { session0 with seenState := .broken } bcastS2
    (fun n => some n.appId) [notifA] rfl rfl
  exact ⟨h.1.1, h.2.2.2.1⟩

/-- C7: a ConnBroken with reason "host-mismatch" resets the delivery hosts
to nil, surfaces an error carrying the reason, and leaves the session in
`Error`; any other reason surfaces the error and the `Error` state but does
not touch the hosts. -/
theorem handleConnBroken_spec (sess : Session) :
    ((handleConnBroken sess brokenHostMismatch).1 =
        some "server broke connection: host-mismatch" ∧
     (handleConnBroken sess brokenHostMismatch).2.deliveryHosts = none ∧
     (handleConnBroken sess brokenHostMismatch).2.state = .Error) ∧
    (∀ reason, reason ≠ brokenHostMismatch →
      (handleConnBroken sess reason).1 = some ("server broke connection: " ++ reason) ∧
      (handleConnBroken sess reason).2.deliveryHosts = sess.deliveryHosts ∧
      (handleConnBroken sess reason).2.state = .Error) := by
  refine ⟨⟨rfl, rfl, rfl⟩, ?_⟩
  intro reason hr
  simp [handleConnBroken, hr]

theorem handleConnBroken_spec_witness :
    (handleConnBroken session0 "REASON").1 = some "server broke connection: REASON" ∧
    (handleConnBroken session0 "REASON").2.state = .Error := by
  have h := (handleConnBroken_spec session0).2 "REASON" (by decide)
  exact ⟨h.1, h.2.2⟩

/-- C10: after a successful handshake `started()` moves the session to
`Started` and rolls the host-rotation cursor back one position modulo the
host-list length, so that the cursor lands back on the host the preceding
`nextHostToTry` handed out — the host that just connected is the first one
tried on the next attempt. -/
theorem started_rolls_back (sess : Session) (hosts : List String)
    (hd : sess.deliveryHosts = some hosts)
    (hk : 0 < hosts.length)
    (ht : sess.tryHost < hosts.length) :
    (started sess).state = .Started ∧
    (started sess).tryHost = (sess.tryHost + hosts.length - 1) % hosts.length ∧
    (0 < sess.leftToTry →
      (started sess.nextHostToTry.2).tryHost = sess.tryHost ∧
      hosts.getD (started sess.nextHostToTry.2).tryHost "" = sess.nextHostToTry.1) := by
  refine ⟨rfl, ?_, ?_⟩
  · by_cases h0 : sess.tryHost = 0
    · have harith : (sess.tryHost + hosts.length - 1) % hosts.length = hosts.length - 1 := by
        rw [h0, Nat.zero_add, Nat.mod_eq_of_lt (by omega)]
      rw [harith]
      simp [started, hd, h0]
    · have harith : (sess.tryHost + hosts.length - 1) % hosts.length = sess.tryHost - 1 := by
        have h2 : sess.tryHost + hosts.length - 1 = (sess.tryHost - 1) + hosts.length := by
          omega
        rw [h2, Nat.add_mod_right, Nat.mod_eq_of_lt (by omega)]
      rw [harith]
      simp [started, hd, h0]
  · intro hlt
    have hstep := nextHostToTry_step sess hosts hd (by omega)
    rw [hstep]
    have htb : (started { sess with
        tryHost := (sess.tryHost + 1) % hosts.length,
        leftToTry := sess.leftToTry - 1 }).tryHost = sess.tryHost := by
      by_cases hend : sess.tryHost + 1 = hosts.length
      · have hmod : (sess.tryHost + 1) % hosts.length = 0 := by
          rw [hend]; exact Nat.mod_self _
        simp [started, hd, hmod]
        omega
      · have hmod : (sess.tryHost + 1) % hosts.length = sess.tryHost + 1 :=
          Nat.mod_eq_of_lt (by omega)
        simp [started, hd, hmod]
    exact ⟨htb, by rw [htb]⟩

theorem started_rolls_back_witness :
    (started sessC1).state = .Started ∧ (started sessC1).tryHost = 0 := by
  have h := started_rolls_back sessC1 ["foo:443", "bar:443", "baz:443"] rfl
    (by decide) (by decide)
  exact ⟨h.1, h.2.1.trans (by decide)⟩

/-!  shouldDelay bookkeeping (C5). -/

theorem nextHostToTry_shouldDelay (sess : Session) :
    sess.nextHostToTry.2.shouldDelay = sess.shouldDelay := by
  by_cases h : sess.leftToTry = 0 <;> simp [Session.nextHostToTry, h]

theorem connectLoop_shouldDelay (dialOk : String → Bool) :
    ∀ (fuel : Nat) (sess : Session),
      (connectLoop dialOk fuel sess).2.shouldDelay = sess.shouldDelay := by
  intro fuel
  induction fuel with
  | zero => intro sess; rfl
  | succ m ih =>
      intro sess
      simp only [connectLoop]
      by_cases h1 : sess.nextHostToTry.1 = ""
      · simp [h1, nextHostToTry_shouldDelay]
      · by_cases h2 : dialOk sess.nextHostToTry.1
        · simp [h1, h2, nextHostToTry_shouldDelay]
        · simp only [h1, h2, if_neg, if_false]
          simp [h1, h2]
          exact (ih _).trans (nextHostToTry_shouldDelay sess)

theorem startConnectionAttempt_shouldDelay (sinceLast now : Int) (sess s2 : Session)
    (h : startConnectionAttempt sinceLast now sess = some s2) :
    s2.shouldDelay = sess.shouldDelay := by
  unfold startConnectionAttempt at h
  by_cases hlen : (sess.deliveryHosts.getD []).length = 0
  · simp [hlen] at h
  · by_cases ht : sinceLast > sess.expectAllRepairedTime <;>
      simp [hlen, ht] at h <;> rw [← h]

theorem connect_sets_shouldDelay (dialOk : String → Bool) (sinceLast now : Int)
    (sess : Session) (r : Option String × Session)
    (h : connect dialOk sinceLast now sess = some r) :
    r.2.shouldDelay = true := by
  have h' : (match startConnectionAttempt sinceLast now (setShouldDelay sess) with
      | none => (none : Option (Option String × Session))
      | some s2 => some (connectLoop dialOk (s2.leftToTry + 1) s2)) = some r := h
  cases hs : startConnectionAttempt sinceLast now (setShouldDelay sess) with
  | none => rw [hs] at h'; cases h'
  | some s2 =>
      rw [hs] at h'
      cases h'
      rw [connectLoop_shouldDelay]
      rw [startConnectionAttempt_shouldDelay sinceLast now (setShouldDelay sess) s2 hs]
      rfl

theorem handlePing_shouldDelay (sess : Session) :
    ((handlePing sess).1 = none → (handlePing sess).2.shouldDelay = false) ∧
    ((handlePing sess).1 ≠ none → (handlePing sess).2.shouldDelay = sess.shouldDelay) := by
  rcases hw : sess.writeReplies with _ | ⟨_ | e, tl⟩ <;>
    simp [handlePing, Session.writeMessage, clearShouldDelay, hw]

theorem handleBroadcast_shouldDelay (sess : Session) (bcast : BroadcastMsg) :
    ((handleBroadcast sess bcast).1 = none →
      (handleBroadcast sess bcast).2.shouldDelay = false) ∧
    ((handleBroadcast sess bcast).1 ≠ none →
      (handleBroadcast sess bcast).2.shouldDelay = sess.shouldDelay) := by
  by_cases hc : bcast.chanId = systemChannelId <;>
    cases hss : sess.seenState <;>
      rcases hw : sess.writeReplies with _ | ⟨_ | e, tl⟩ <;>
        simp [handleBroadcast, Session.writeMessage, SeenState.setLevel,
          clearShouldDelay, hc, hss, hw]

theorem handleNotifications_shouldDelay (sess : Session)
    (checker : Notification → Option String) (notifs : List Notification) :
    ((handleNotifications sess checker notifs).1 = none →
      (handleNotifications sess checker notifs).2.shouldDelay = false) ∧
    ((handleNotifications sess checker notifs).1 ≠ none →
      (handleNotifications sess checker notifs).2.shouldDelay = sess.shouldDelay) := by
  cases hss : sess.seenState <;>
    rcases hw : sess.writeReplies with _ | ⟨_ | e, tl⟩ <;>
      simp [handleNotifications, Session.writeMessage, SeenState.filterBySeen,
        clearShouldDelay, hss, hw]

/-- C5: `shouldDelay` is true immediately after every `connect()` call
(successful dial or exhausted rotation alike); it is false immediately
after a successful handlePing, handleBroadcast or handleNotifications; and
it stays true when any of those handlers returns an error. -/
theorem shouldDelay_invariant :
    (∀ (dialOk : String → Bool) (sinceLast now : Int) (sess : Session)
        (r : Option String × Session),
        connect dialOk sinceLast now sess = some r → r.2.shouldDelay = true) ∧
    (∀ sess : Session,
        (handlePing sess).1 = none → (handlePing sess).2.shouldDelay = false) ∧
    (∀ sess : Session, sess.shouldDelay = true → (handlePing sess).1 ≠ none →
        (handlePing sess).2.shouldDelay = true) ∧
    (∀ (sess : Session) (bcast : BroadcastMsg),
        (handleBroadcast sess bcast).1 = none →
        (handleBroadcast sess bcast).2.shouldDelay = false) ∧
    (∀ (sess : Session) (bcast : BroadcastMsg), sess.shouldDelay = true →
        (handleBroadcast sess bcast).1 ≠ none →
        (handleBroadcast sess bcast).2.shouldDelay = true) ∧
    (∀ (sess : Session) (checker : Notification → Option String)
        (notifs : List Notification),
        (handleNotifications sess checker notifs).1 = none →
        (handleNotifications sess checker notifs).2.shouldDelay = false) ∧
    (∀ (sess : Session) (checker : Notification → Option String)
        (notifs : List Notification), sess.shouldDelay = true →
        (handleNotifications sess checker notifs).1 ≠ none →
        (handleNotifications sess checker notifs).2.shouldDelay = true) := by
  refine ⟨connect_sets_shouldDelay, ?_, ?_, ?_, ?_, ?_, ?_⟩
  · exact fun sess => (handlePing_shouldDelay sess).1
  · exact fun sess hsd he => ((handlePing_shouldDelay sess).2 he).trans hsd
  · exact fun sess bcast => (handleBroadcast_shouldDelay sess bcast).1
  · exact fun sess bcast hsd he => ((handleBroadcast_shouldDelay sess bcast).2 he).trans hsd
  · exact fun sess checker notifs => (handleNotifications_shouldDelay sess checker notifs).1
  · exact fun sess checker notifs hsd he =>
      ((handleNotifications_shouldDelay sess checker notifs).2 he).trans hsd

theorem shouldDelay_invariant_witness :
    (handlePing session0).1 = none ∧ (handlePing session0).2.shouldDelay = false :=
  ⟨rfl, shouldDelay_invariant.2.1 session0 rfl⟩

/-!  The redial-delay schedule walk (C6). -/

/-- The zero jitter function used by TestRedialDelay and scenario S6. -/
def zeroJitter : Int → Int := fun _ => 0

/-- A session with `shouldDelay` set and the schedule cursor at the head. -/
def sessDelay : Session := { session0 with shouldDelay := true }

/-- The session after the nine schedule steps: cursor held at the last
entry. -/
def sessDelay9 : Session := { sessDelay with redialDelayIndex := 8 }

/-- C6: with `shouldDelay` set and zero jitter, consecutive `redialDelay`
calls walk the backoff schedule 1s, 2s, 5s, 11s, 19s, 37s, 67s, 113s, 191s
and then return the last value on every further call; after
`clearShouldDelay` the next call returns 0 and resets the cursor to the
head; after `setShouldDelay` again the next call restarts at 1s. -/
theorem redialDelay_schedule :
    (runRedialDelays zeroJitter sessDelay 9).1 =
      [second, 2 * second, 5 * second, 11 * second, 19 * second, 37 * second,
       67 * second, 113 * second, 191 * second] ∧
    (runRedialDelays zeroJitter sessDelay 9).2 = sessDelay9 ∧
    (∀ k, runRedialDelays zeroJitter sessDelay9 k =
      (List.replicate k (191 * second), sessDelay9)) ∧
    redialDelay zeroJitter (clearShouldDelay sessDelay9) =
      (0, { sessDelay9 with shouldDelay := false, redialDelayIndex := 0 }) ∧
    (redialDelay zeroJitter
      (setShouldDelay (redialDelay zeroJitter (clearShouldDelay sessDelay9)).2)).1 =
      second := by
  refine ⟨rfl, rfl, ?_, rfl, rfl⟩
  intro k
  induction k with
  | zero => rfl
  | succ m ih =>
      have hstep : redialDelay zeroJitter sessDelay9 = (191 * second, sessDelay9) := rfl
      simp only [runRedialDelays, hstep, ih, List.replicate_succ]

theorem redialDelay_schedule_witness :
    runRedialDelays zeroJitter sessDelay9 2 =
      (List.replicate 2 (191 * second), sessDelay9) :=
  redialDelay_schedule.2.2.1 2

/-!  getHosts (C8). -/

/-- C8: `getHosts` prefers the configured fallback list; with no fallback
it keeps the cached delivery hosts while the cache is younger than
`HostsCachingExpiryTime`; once the cache has expired or the hosts were
reset it takes the endpoint fetch, storing the hosts and the fetch time on
success; a failed fetch surfaces the error, leaves the delivery hosts
untouched (so still nil when they were nil) and moves the session to
`Error`; `resetHosts()` clears the delivery hosts. -/
theorem getHosts_spec (fetch : Except String (List String)) (now : Int) (sess : Session) :
    (∀ fb, sess.fallbackHosts = some fb →
      (getHosts fetch now sess).1 = none ∧
      (getHosts fetch now sess).2.deliveryHosts = some fb) ∧
    (∀ hs, sess.fallbackHosts = none → sess.deliveryHosts = some hs →
      now - sess.hostsTimestamp < sess.hostsCachingExpiryTime →
      getHosts fetch now sess = (none, sess)) ∧
    (∀ hs2, sess.fallbackHosts = none →
      (sess.deliveryHosts = none ∨
        sess.hostsCachingExpiryTime ≤ now - sess.hostsTimestamp) →
      fetch = .ok hs2 →
      (getHosts fetch now sess).1 = none ∧
      (getHosts fetch now sess).2.deliveryHosts = some hs2 ∧
      (getHosts fetch now sess).2.hostsTimestamp = now) ∧
    (∀ e, sess.fallbackHosts = none →
      (sess.deliveryHosts = none ∨
        sess.hostsCachingExpiryTime ≤ now - sess.hostsTimestamp) →
      fetch = .error e →
      (getHosts fetch now sess).1 = some e ∧
      (getHosts fetch now sess).2.deliveryHosts = sess.deliveryHosts ∧
      (getHosts fetch now sess).2.state = .Error) ∧
    (resetHosts sess).deliveryHosts = none := by
  refine ⟨?_, ?_, ?_, ?_, rfl⟩
  · intro fb hfb
    simp [getHosts, hfb]
  · intro hs hfb hd hfresh
    simp [getHosts, hfb, hd, hfresh]
  · intro hs2 hfb hstale hok
    rcases hstale with hnone | hexp
    · simp [getHosts, hfb, hnone, hok]
    · cases hd : sess.deliveryHosts with
      | none => simp [getHosts, hfb, hd, hok]
      | some hs => simp [getHosts, hfb, hd, hok, Int.not_lt.mpr hexp]
  · intro e hfb hstale herr
    rcases hstale with hnone | hexp
    · simp [getHosts, hfb, hnone, herr]
    · cases hd : sess.deliveryHosts with
      | none => simp [getHosts, hfb, hd, herr]
      | some hs => simp [getHosts, hfb, hd, herr, Int.not_lt.mpr hexp]

theorem getHosts_spec_witness :
    (getHosts (.ok ["baz:443"]) 0
      { session0 with fallbackHosts := some ["foo:443", "bar:443"] }).2.deliveryHosts =
      some ["foo:443", "bar:443"] :=
  ((getHosts_spec (.ok ["baz:443"]) 0
    { session0 with fallbackHosts := some ["foo:443", "bar:443"] }).1
      ["foo:443", "bar:443"] rfl).2

/-!  AutoRetry (C9), proved against the translation of util/redialer.go. -/

theorem autoRetryAux_success (f : Nat → Bool) (jitter : Int → Int) (cancel : Nat → Bool) :
    ∀ (k d : Nat),
      (∀ i, i < k → f (d + i) = false ∧ cancel (d + i) = false) →
      f (d + k) = true →
      d + k + 1 < uint32Mod →
      autoRetryAux f jitter cancel d (k + 1) =
        some (d + k + 1,
          (List.range' d k).map fun j => timeoutFor j + jitter (timeoutFor j)) := by
  intro k
  induction k with
  | zero =>
      intro d hfail hsucc hlt
      have h1 : (d + 1) % uint32Mod = d + 1 := Nat.mod_eq_of_lt (by omega)
      simp only [Nat.add_zero] at hsucc
      simp [autoRetryAux, hsucc, h1]
  | succ m ih =>
      intro d hfail hsucc hlt
      have hf0 : f d = false := by simpa using (hfail 0 (by omega)).1
      have hc0 : cancel d = false := by simpa using (hfail 0 (by omega)).2
      have hmod : (d + 1) % uint32Mod = d + 1 := Nat.mod_eq_of_lt (by omega)
      have hrec := ih (d + 1)
        (fun i hi => by
          have h := hfail (i + 1) (by omega)
          rwa [show d + (i + 1) = d + 1 + i by omega] at h)
        (by rwa [show d + 1 + m = d + (m + 1) by omega])
        (by omega)
      rw [show d + 1 + m + 1 = d + (m + 1) + 1 from by omega] at hrec
      have hunfold : autoRetryAux f jitter cancel d (m + 1 + 1) =
          (if f d = true then some ((d + 1) % uint32Mod, [])
           else
             if cancel d = true then some ((d + 1) % uint32Mod, [])
             else
               match autoRetryAux f jitter cancel ((d + 1) % uint32Mod) (m + 1) with
               | none => none
               | some (n, ws) =>
                   some (n, (timeoutFor d + jitter (timeoutFor d)) :: ws)) := rfl
      rw [hunfold, hmod, hrec, List.range'_succ, List.map_cons]
      simp [hf0, hc0]

theorem autoRetryAux_cancel (f : Nat → Bool) (jitter : Int → Int) (cancel : Nat → Bool) :
    ∀ (c d : Nat),
      (∀ i, i ≤ c → f (d + i) = false) →
      (∀ i, i < c → cancel (d + i) = false) →
      cancel (d + c) = true →
      d + c + 1 < uint32Mod →
      autoRetryAux f jitter cancel d (c + 1) =
        some (d + c + 1,
          (List.range' d c).map fun j => timeoutFor j + jitter (timeoutFor j)) := by
  intro c
  induction c with
  | zero =>
      intro d hf hcl hc hlt
      have hf0 : f d = false := by simpa using hf 0 (by omega)
      have h1 : (d + 1) % uint32Mod = d + 1 := Nat.mod_eq_of_lt (by omega)
      simp only [Nat.add_zero] at hc
      simp [autoRetryAux, hf0, hc, h1]
  | succ m ih =>
      intro d hf hcl hc hlt
      have hf0 : f d = false := by simpa using hf 0 (by omega)
      have hc0 : cancel d = false := by simpa using hcl 0 (by omega)
      have hmod : (d + 1) % uint32Mod = d + 1 := Nat.mod_eq_of_lt (by omega)
      have hrec := ih (d + 1)
        (fun i hi => by
          have h := hf (i + 1) (by omega)
          rwa [show d + (i + 1) = d + 1 + i by omega] at h)
        (fun i hi => by
          have h := hcl (i + 1) (by omega)
          rwa [show d + (i + 1) = d + 1 + i by omega] at h)
        (by
          have h := hc
          rwa [show d + (m + 1) = d + 1 + m by omega] at h)
        (by omega)
      rw [show d + 1 + m + 1 = d + (m + 1) + 1 from by omega] at hrec
      have hunfold : autoRetryAux f jitter cancel d (m + 1 + 1) =
          (if f d = true then some ((d + 1) % uint32Mod, [])
           else
             if cancel d = true then some ((d + 1) % uint32Mod, [])
             else
               match autoRetryAux f jitter cancel ((d + 1) % uint32Mod) (m + 1) with
               | none => none
               | some (n, ws) =>
                   some (n, (timeoutFor d + jitter (timeoutFor d)) :: ws)) := rfl
      rw [hunfold, hmod, hrec, List.range'_succ, List.map_cons]
      simp [hf0, hc0]

/-- C9: the backoff schedule is 1, 2, 5, 11, 19, 37, 67, 113, 191 seconds
with `3·p(n+1) ≥ 5·p(n)`; the timeout before the i-th retry is
`Timeouts[min(i, N-1)]` plus jitter of it; AutoRetry calls f until it
succeeds, returning the attempt count (failed attempts plus the successful
one), with every wait fully slept; a cancellation delivered during a wait
stops the loop right there returning the attempts so far — it is only ever
consulted between attempts, never during an in-flight f() call (the success
branch returns even with a cancellation pending at the same index). -/
theorem autoRetry_spec :
    (∀ i, i < Timeouts.length - 1 →
      3 * Timeouts.getD (i + 1) 0 ≥ 5 * Timeouts.getD i 0) ∧
    (∀ i, timeoutFor i = Timeouts.getD (min i (Timeouts.length - 1)) 0) ∧
    (∀ (f : Nat → Bool) (jitter : Int → Int) (cancel : Nat → Bool) (k : Nat),
      (∀ i, i < k → f i = false ∧ cancel i = false) →
      f k = true → k + 1 < uint32Mod →
      AutoRetry f jitter cancel (k + 1) =
        some (k + 1, (List.range k).map fun i => timeoutFor i + jitter (timeoutFor i))) ∧
    (∀ (f : Nat → Bool) (jitter : Int → Int) (cancel : Nat → Bool) (c : Nat),
      (∀ i, i ≤ c → f i = false) → (∀ i, i < c → cancel i = false) →
      cancel c = true → c + 1 < uint32Mod →
      AutoRetry f jitter cancel (c + 1) =
        some (c + 1, (List.range c).map fun i => timeoutFor i + jitter (timeoutFor i))) := by
  refine ⟨by decide, ?_, ?_, ?_⟩
  · intro i
    unfold timeoutFor
    by_cases h : i < Timeouts.length
    · rw [if_pos h]
      congr 1
      have h9 : Timeouts.length = 9 := by rfl
      omega
    · rw [if_neg h]
      congr 1
      have h9 : Timeouts.length = 9 := by rfl
      omega
  · intro f jitter cancel k hfc hk hlt
    have h := autoRetryAux_success f jitter cancel k 0
      (fun i hi => by simpa using hfc i hi)
      (by simpa using hk) (by omega)
    unfold AutoRetry
    rw [List.range_eq_range', h]
    simp
  · intro f jitter cancel c hf hcl hc hlt
    have h := autoRetryAux_cancel f jitter cancel c 0
      (fun i hi => by simpa using hf i hi)
      (fun i hi => by simpa using hcl i hi)
      (by simpa using hc) (by omega)
    unfold AutoRetry
    rw [List.range_eq_range', h]
    simp

theorem autoRetry_spec_witness :
    AutoRetry (fun i => i == 2) (fun _ => 0) (fun _ => false) 3 =
      some (3, [second, 2 * second]) := by
  have h := autoRetry_spec.2.2.1 (fun i => i == 2) (fun _ => 0) (fun _ => false) 2
    (by decide) (by decide) (by decide)
  exact h.trans (by decide)

end PushClient
